import Mathlib

/-!
Shallow embedding of the pumpfundler SDK pricing and bundling logic.

JavaScript `bigint` arithmetic is modelled by `Int`; `bigint` division
truncates toward zero, which is `Int.tdiv`, and throws on a zero divisor,
which is modelled by `bigDiv` returning an error.  Methods that can throw
return `Except CurveErr Int`; mutation of a class instance is modelled by
returning the updated state.
-/

namespace PumpSdk

/-- Errors a pricing query can raise: the explicit curve-complete guard, or a
division by zero raised by the bigint division itself. -/
inductive CurveErr where
  | curveComplete
  | divByZero
deriving DecidableEq, Repr

/-- JavaScript bigint division: truncates toward zero, throws on zero divisor. -/
def bigDiv (a b : Int) : Except CurveErr Int :=
  if b = 0 then Except.error CurveErr.divByZero else Except.ok (Int.tdiv a b)

/-- State of `BondingCurveAccount` (bondingCurveAccount.ts): six u64 fields
decoded from the 49-byte account blob plus the `complete` flag. -/
structure BondingCurveAccount where
  discriminator : Int
  virtualTokenReserves : Int
  virtualSolReserves : Int
  realTokenReserves : Int
  realSolReserves : Int
  tokenTotalSupply : Int
  complete : Bool
deriving DecidableEq, Repr

/-- Well-formedness from the data model: every numeric field is a u64
(decoded as an 8-byte little-endian unsigned integer). -/
def BondingCurveAccount.Wf (c : BondingCurveAccount) : Prop :=
  0 ≤ c.discriminator ∧ c.discriminator < 2 ^ 64 ∧
  0 ≤ c.virtualTokenReserves ∧ c.virtualTokenReserves < 2 ^ 64 ∧
  0 ≤ c.virtualSolReserves ∧ c.virtualSolReserves < 2 ^ 64 ∧
  0 ≤ c.realTokenReserves ∧ c.realTokenReserves < 2 ^ 64 ∧
  0 ≤ c.realSolReserves ∧ c.realSolReserves < 2 ^ 64 ∧
  0 ≤ c.tokenTotalSupply ∧ c.tokenTotalSupply < 2 ^ 64

instance (c : BondingCurveAccount) : Decidable c.Wf := by
  unfold BondingCurveAccount.Wf; infer_instance

/-- Source method `BondingCurveAccount.getBuyPrice` (bondingCurveAccount.ts lines 39-62). -/
def BondingCurveAccount.getBuyPrice (c : BondingCurveAccount) (amount : Int) :
    Except CurveErr Int :=
  if c.complete then Except.error CurveErr.curveComplete
  else if amount ≤ 0 then Except.ok 0
  else
    match bigDiv (c.virtualSolReserves * c.virtualTokenReserves)
        (c.virtualSolReserves + amount) with
    | Except.error e => Except.error e
    | Except.ok q =>
      let r := q + 1
      let s := c.virtualTokenReserves - r
      Except.ok (if s < c.realTokenReserves then s else c.realTokenReserves)

/-- Source method `BondingCurveAccount.getSellPrice` (bondingCurveAccount.ts lines 71-89). -/
def BondingCurveAccount.getSellPrice (c : BondingCurveAccount)
    (amount feeBasisPoints : Int) : Except CurveErr Int :=
  if c.complete then Except.error CurveErr.curveComplete
  else if amount ≤ 0 then Except.ok 0
  else
    match bigDiv (amount * c.virtualSolReserves)
        (c.virtualTokenReserves + amount) with
    | Except.error e => Except.error e
    | Except.ok n =>
      match bigDiv (n * feeBasisPoints) 10000 with
      | Except.error e => Except.error e
      | Except.ok a => Except.ok (n - a)

/-- Source method `BondingCurveAccount.getBuyOutPrice` (bondingCurveAccount.ts lines
133-142); note the source has no `complete` guard here. -/
def BondingCurveAccount.getBuyOutPrice (c : BondingCurveAccount)
    (amount feeBasisPoints : Int) : Except CurveErr Int :=
  let solTokens := if amount < c.realSolReserves then c.realSolReserves else amount
  match bigDiv (solTokens * c.virtualSolReserves)
      (c.virtualTokenReserves - solTokens) with
  | Except.error e => Except.error e
  | Except.ok q =>
    let totalSellValue := q + 1
    match bigDiv (totalSellValue * feeBasisPoints) 10000 with
    | Except.error e => Except.error e
    | Except.ok fee => Except.ok (totalSellValue + fee)

/-- Result of a simulated buy (amm.ts `BuyResult`). -/
structure BuyResult where
  token_amount : Int
  sol_amount : Int
deriving DecidableEq, Repr

/-- Result of a simulated sell (amm.ts `SellResult`). -/
structure SellResult where
  token_amount : Int
  sol_amount : Int
deriving DecidableEq, Repr

/-- State of the `AMM` class (amm.ts): four live reserves plus the launch
scaling constant fixed at construction. -/
structure AMM where
  virtualSolReserves : Int
  virtualTokenReserves : Int
  realSolReserves : Int
  realTokenReserves : Int
  initialVirtualTokenReserves : Int
deriving DecidableEq, Repr

/-- Solana address (web3.js `PublicKey`): a 32-byte value the pricing logic
never inspects, carried only as account data. -/
structure PublicKey where
  bytes : Nat
deriving DecidableEq, Repr

/-- State of the source `GlobalAccount` class (globalAccount.ts, appearing in
the snapshot concatenated after pumpfun.ts, lines 711-785): the nine
constructor fields in source order — u64 discriminator, the initialized flag,
two addresses, and five u64 protocol parameters. `AMM.fromGlobalAccount`
reads the three initial reserve figures. -/
structure GlobalAccount where
  discriminator : Int
  initialized : Bool
  authority : PublicKey
  feeRecipient : PublicKey
  initialVirtualTokenReserves : Int
  initialVirtualSolReserves : Int
  initialRealTokenReserves : Int
  tokenTotalSupply : Int
  feeBasisPoints : Int
deriving DecidableEq, Repr

/-- Source method `AMM.fromGlobalAccount` (amm.ts lines 57-65): fresh AMM seeded from the
protocol-wide initial reserves, with zero real sol reserves. -/
def AMM.fromGlobalAccount (global : GlobalAccount) : AMM :=
  { virtualSolReserves := global.initialVirtualSolReserves
    virtualTokenReserves := global.initialVirtualTokenReserves
    realSolReserves := 0
    realTokenReserves := global.initialRealTokenReserves
    initialVirtualTokenReserves := global.initialVirtualTokenReserves }

/-- Source method `AMM.getBuyPrice` (amm.ts lines 91-102). -/
def AMM.getBuyPrice (a : AMM) (tokens : Int) : Except CurveErr Int :=
  match bigDiv (a.virtualSolReserves * a.virtualTokenReserves)
      (a.virtualTokenReserves - tokens) with
  | Except.error e => Except.error e
  | Except.ok q =>
    let new_virtual_sol_reserves := q + 1
    let amount_needed :=
      if new_virtual_sol_reserves > a.virtualSolReserves
      then new_virtual_sol_reserves - a.virtualSolReserves else 0
    Except.ok (if amount_needed > 0 then amount_needed else 0)

/-- Source method `AMM.applyBuy` (amm.ts lines 109-126): clamps the request to the real
token reserves, prices it, then moves all four reserves. -/
def AMM.applyBuy (a : AMM) (token_amount : Int) :
    Except CurveErr (BuyResult × AMM) :=
  let final_token_amount :=
    if token_amount > a.realTokenReserves then a.realTokenReserves
    else token_amount
  match a.getBuyPrice final_token_amount with
  | Except.error e => Except.error e
  | Except.ok sol_amount =>
    Except.ok
      ({ token_amount := final_token_amount, sol_amount := sol_amount },
       { a with
           virtualTokenReserves := a.virtualTokenReserves - final_token_amount
           realTokenReserves := a.realTokenReserves - final_token_amount
           virtualSolReserves := a.virtualSolReserves + sol_amount
           realSolReserves := a.realSolReserves + sol_amount })

/-- Source method `AMM.getSellPrice` (amm.ts lines 153-162): scales by the launch constant
and clamps the proceeds to the real sol reserves. -/
def AMM.getSellPrice (a : AMM) (tokens : Int) : Except CurveErr Int :=
  let scaling_factor := a.initialVirtualTokenReserves
  match bigDiv (tokens * scaling_factor) a.virtualTokenReserves with
  | Except.error e => Except.error e
  | Except.ok token_sell_proportion =>
    match bigDiv (a.virtualSolReserves * token_sell_proportion)
        scaling_factor with
    | Except.error e => Except.error e
    | Except.ok sol_received =>
      Except.ok (if sol_received < a.realSolReserves then sol_received
                 else a.realSolReserves)

/-- Source method `AMM.applySell` (amm.ts lines 133-146): adds the full requested amount to
both token reserves first, prices against the post-increment state, then
subtracts the proceeds from both sol reserves. -/
def AMM.applySell (a : AMM) (token_amount : Int) :
    Except CurveErr (SellResult × AMM) :=
  let a1 :=
    { a with
        virtualTokenReserves := a.virtualTokenReserves + token_amount
        realTokenReserves := a.realTokenReserves + token_amount }
  match a1.getSellPrice token_amount with
  | Except.error e => Except.error e
  | Except.ok sell_price =>
    Except.ok
      ({ token_amount := token_amount, sol_amount := sell_price },
       { a1 with
           virtualSolReserves := a1.virtualSolReserves - sell_price
           realSolReserves := a1.realSolReserves - sell_price })

/-- The sale proceeds `applySell` computes on success, as one closed formula:
the clamped sell price evaluated against the post-increment token reserves. -/
def sellProceeds (a : AMM) (token_amount : Int) : Int :=
  min (Int.tdiv
        (a.virtualSolReserves *
          Int.tdiv (token_amount * a.initialVirtualTokenReserves)
            (a.virtualTokenReserves + token_amount))
        a.initialVirtualTokenReserves)
    a.realSolReserves

/-- The number of chunks `bundle` submits (jito integration file, line 77):
`Math.ceil(txs.length / 3)`. -/
def txNum (txs : List τ) : Nat := (txs.length + 2) / 3

/-- The i-th chunk the `bundle` loop assembles (jito integration file, lines
79-86): the elements at indices `3*i`, `3*i+1`, `3*i+2` that exist. -/
def chunkAt (txs : List τ) (i : Nat) : List τ :=
  (List.range 3).filterMap fun j => txs[3 * i + j]?

/-- All chunks `bundle` submits, in order. -/
def chunksList (txs : List τ) : List (List τ) :=
  (List.range (txNum txs)).map fun i => chunkAt txs i

/-- Source function `bundle` (jito integration file, lines 71-95), with the per-chunk relay
round trip (`bull_dozer`) abstracted as an outcome oracle `submit i chunk`:
counts the successful chunk submissions and reports overall success exactly
when every chunk succeeded. -/
def bundleRun (submit : Nat → List τ → Bool) (txs : List τ) : Bool :=
  let n := txNum txs
  let successNum := (List.range n).countP fun i => submit i (chunkAt txs i)
  successNum == n

/-- Source function `getRandomInt` (util source, lines 316-320): `Math.random()`'s draw is the
abstract parameter `r`; `Math.ceil`/`Math.floor` are applied to the bounds and
the scaled draw is floored into the inclusive range. -/
def getRandomInt (lo hi : ℚ) (r : ℚ) : Int :=
  let lo1 := Int.ceil lo
  let hi1 := Int.floor hi
  Int.floor (r * ((hi1 : ℚ) - (lo1 : ℚ) + 1)) + lo1

/-- The per-buyer randomized amount in `createAndBuy` (pumpfun.ts lines
152-155): `(buyAmountSol / 100n) * BigInt(p % 2 ? 100 + p : 100 - p)` —
the truncating division by 100 happens before the multiplication. -/
def buyAmountSolWithRandom (buyAmountSol : Int) (randomPercent : Int) : Int :=
  Int.tdiv buyAmountSol 100 *
    (if Int.tmod randomPercent 2 = 0 then 100 - randomPercent
     else 100 + randomPercent)


deriving instance DecidableEq for Except

lemma ite_lt_eq_min (x y : Int) : (if x < y then x else y) = min x y := by
  rcases lt_or_le x y with h | h
  · rw [if_pos h, min_eq_left h.le]
  · rw [if_neg (not_lt.mpr h), min_eq_right h]

/-- Claim C1: on a well-formed (u64-field) bonding curve state with
`complete = false`, `getBuyPrice amount` returns
`min (virtualTokenReserves - (virtualSolReserves * virtualTokenReserves
/ (virtualSolReserves + amount) + 1)) realTokenReserves` for every
`amount > 0` (truncating integer division), and returns 0 for every
`amount ≤ 0`. -/
theorem bonding_getBuyPrice_spec (c : BondingCurveAccount) (amount : Int)
    (hWf : c.Wf) (hc : c.complete = false) :
    (0 < amount →
      c.getBuyPrice amount =
        Except.ok (min
          (c.virtualTokenReserves -
            (Int.tdiv (c.virtualSolReserves * c.virtualTokenReserves)
              (c.virtualSolReserves + amount) + 1))
          c.realTokenReserves)) ∧
    (amount ≤ 0 → c.getBuyPrice amount = Except.ok 0) := by
  obtain ⟨-, -, -, -, hvS, -, -, -, -, -, -, -⟩ := hWf
  constructor
  · intro hpos
    have hden : c.virtualSolReserves + amount ≠ 0 := by omega
    simp only [BondingCurveAccount.getBuyPrice, hc, bigDiv, if_neg hden,
      Bool.false_eq_true, if_false, if_neg (not_le.mpr hpos)]
    rw [ite_lt_eq_min]
  · intro hle
    simp only [BondingCurveAccount.getBuyPrice, hc, Bool.false_eq_true,
      if_false, if_pos hle]

/-- Witness for C1 at the concrete state (0,1000,1000,500,10,0,false) with
amounts 100 and 0. -/
theorem bonding_getBuyPrice_spec_witness :
    BondingCurveAccount.getBuyPrice ⟨0, 1000, 1000, 500, 10, 0, false⟩ 100 =
      Except.ok 90 ∧
    BondingCurveAccount.getBuyPrice ⟨0, 1000, 1000, 500, 10, 0, false⟩ 0 =
      Except.ok 0 := by
  have h := bonding_getBuyPrice_spec ⟨0, 1000, 1000, 500, 10, 0, false⟩ 100
    (by decide) rfl
  have h0 := bonding_getBuyPrice_spec ⟨0, 1000, 1000, 500, 10, 0, false⟩ 0
    (by decide) rfl
  exact ⟨(h.1 (by decide)).trans (by decide), h0.2 (by decide)⟩


/-- Claim C2: on a well-formed non-complete bonding curve state,
`getSellPrice amount feeBasisPoints` returns `n - n * feeBasisPoints / 10000`
with `n = amount * virtualSolReserves / (virtualTokenReserves + amount)`
(truncating division) for `amount > 0`, returns 0 for `amount ≤ 0`, and in
particular on the spec scenario state (1000/1000/500, complete = false)
`getSellPrice 100 100` equals
`100*1000/1100 - (100*1000/1100)*100/10000`. -/
theorem bonding_getSellPrice_spec (c : BondingCurveAccount)
    (amount feeBasisPoints : Int) (hWf : c.Wf) (hc : c.complete = false) :
    (0 < amount →
      c.getSellPrice amount feeBasisPoints =
        Except.ok
          (Int.tdiv (amount * c.virtualSolReserves)
              (c.virtualTokenReserves + amount) -
           Int.tdiv
             (Int.tdiv (amount * c.virtualSolReserves)
                (c.virtualTokenReserves + amount) * feeBasisPoints) 10000)) ∧
    (amount ≤ 0 → c.getSellPrice amount feeBasisPoints = Except.ok 0) ∧
    BondingCurveAccount.getSellPrice ⟨0, 1000, 1000, 500, 10, 0, false⟩ 100 100 =
      Except.ok (Int.tdiv (100 * 1000) 1100 -
        Int.tdiv (Int.tdiv (100 * 1000) 1100 * 100) 10000) := by
  obtain ⟨-, -, hvT, -, -, -, -, -, -, -, -, -⟩ := hWf
  refine ⟨?_, ?_, by decide⟩
  · intro hpos
    have hden : c.virtualTokenReserves + amount ≠ 0 := by omega
    have hfee : (10000 : Int) ≠ 0 := by decide
    simp only [BondingCurveAccount.getSellPrice, hc, Bool.false_eq_true,
      if_false, if_neg (not_le.mpr hpos), bigDiv, if_neg hden, if_neg hfee]
  · intro hle
    simp only [BondingCurveAccount.getSellPrice, hc, Bool.false_eq_true,
      if_false, if_pos hle]

/-- Witness for C2: the scenario evaluates to 90, and a negative amount
yields 0. -/
theorem bonding_getSellPrice_spec_witness :
    BondingCurveAccount.getSellPrice ⟨0, 1000, 1000, 500, 10, 0, false⟩ 100 100 =
      Except.ok 90 ∧
    BondingCurveAccount.getSellPrice ⟨0, 1000, 1000, 500, 10, 0, false⟩ (-5) 100 =
      Except.ok 0 := by
  have h := bonding_getSellPrice_spec ⟨0, 1000, 1000, 500, 10, 0, false⟩ 100 100
    (by decide) rfl
  have h2 := bonding_getSellPrice_spec ⟨0, 1000, 1000, 500, 10, 0, false⟩ (-5) 100
    (by decide) rfl
  exact ⟨(h.1 (by decide)).trans (by decide), h2.2.1 (by decide)⟩


/-- Claim C7, amended: `AMM.getBuyPrice tokens` raises the division-by-zero
arithmetic error exactly when `tokens = virtualTokenReserves` (not for every
`tokens ≥ virtualTokenReserves`); for every other `tokens` it succeeds and
returns `max (virtualSolReserves * virtualTokenReserves /
(virtualTokenReserves - tokens) + 1 - virtualSolReserves) 0`. -/
theorem amm_getBuyPrice_spec (a : AMM) (tokens : Int) :
    (tokens = a.virtualTokenReserves →
      a.getBuyPrice tokens = Except.error CurveErr.divByZero) ∧
    (tokens ≠ a.virtualTokenReserves →
      a.getBuyPrice tokens =
        Except.ok (max
          (Int.tdiv (a.virtualSolReserves * a.virtualTokenReserves)
            (a.virtualTokenReserves - tokens) + 1 - a.virtualSolReserves)
          0)) := by
  constructor
  · intro h
    have hden : a.virtualTokenReserves - tokens = 0 := by omega
    simp only [AMM.getBuyPrice, bigDiv, if_pos hden]
  · intro h
    have hden : a.virtualTokenReserves - tokens ≠ 0 := by omega
    simp only [AMM.getBuyPrice, bigDiv, if_neg hden, Except.ok.injEq]
    split <;> split <;> omega

/-- Witness for C7 at a concrete state: failure at `tokens =
virtualTokenReserves` and success at `tokens = 100`. -/
theorem amm_getBuyPrice_spec_witness :
    AMM.getBuyPrice ⟨1000, 1000, 0, 500, 1000⟩ 1000 =
      Except.error CurveErr.divByZero ∧
    AMM.getBuyPrice ⟨1000, 1000, 0, 500, 1000⟩ 100 = Except.ok 112 := by
  have h1 := amm_getBuyPrice_spec ⟨1000, 1000, 0, 500, 1000⟩ 1000
  have h2 := amm_getBuyPrice_spec ⟨1000, 1000, 0, 500, 1000⟩ 100
  exact ⟨h1.1 rfl, (h2.2 (by decide)).trans (by decide)⟩

/-- Counterexample to C7 as stated: with virtual token reserves 10 and
`tokens = 11 ≥ 10`, `AMM.getBuyPrice` does not fail — the divisor is
negative, not zero — and returns 0. -/
theorem amm_getBuyPrice_excess_tokens_counterexample :
    (11 : Int) ≥ (⟨1000, 10, 0, 0, 10⟩ : AMM).virtualTokenReserves ∧
    AMM.getBuyPrice ⟨1000, 10, 0, 0, 10⟩ 11 = Except.ok 0 ∧
    AMM.getBuyPrice ⟨1000, 10, 0, 0, 10⟩ 11 ≠
      Except.error CurveErr.divByZero := by
  refine ⟨by decide, by decide, by decide⟩

lemma bigDiv_ne_curveComplete (a b : Int) :
    bigDiv a b ≠ Except.error CurveErr.curveComplete := by
  unfold bigDiv; split <;> simp

/-- Claim C8, amended: when `complete = true`, `getBuyPrice` and
`getSellPrice` fail with the curve-complete error for every amount, and when
`complete = false` they never raise that error; `getBuyOutPrice`, however,
never raises the curve-complete error at all — the source has no `complete`
guard there. -/
theorem curve_complete_gating_spec (c : BondingCurveAccount)
    (amount feeBasisPoints : Int) :
    (c.complete = true →
      c.getBuyPrice amount = Except.error CurveErr.curveComplete ∧
      c.getSellPrice amount feeBasisPoints =
        Except.error CurveErr.curveComplete) ∧
    (c.complete = false →
      c.getBuyPrice amount ≠ Except.error CurveErr.curveComplete ∧
      c.getSellPrice amount feeBasisPoints ≠
        Except.error CurveErr.curveComplete) ∧
    c.getBuyOutPrice amount feeBasisPoints ≠
      Except.error CurveErr.curveComplete := by
  refine ⟨fun hc => ?_, fun hc => ?_, ?_⟩
  · constructor
    · simp only [BondingCurveAccount.getBuyPrice, hc, if_true]
    · simp only [BondingCurveAccount.getSellPrice, hc, if_true]
  · constructor
    · simp only [BondingCurveAccount.getBuyPrice, hc, Bool.false_eq_true,
        if_false]
      split
      · simp
      · cases hbd : bigDiv (c.virtualSolReserves * c.virtualTokenReserves)
            (c.virtualSolReserves + amount) with
        | error e =>
          have := bigDiv_ne_curveComplete
            (c.virtualSolReserves * c.virtualTokenReserves)
            (c.virtualSolReserves + amount)
          rw [hbd] at this
          simpa using this
        | ok q => simp
    · simp only [BondingCurveAccount.getSellPrice, hc, Bool.false_eq_true,
        if_false]
      split
      · simp
      · cases hbd : bigDiv (amount * c.virtualSolReserves)
            (c.virtualTokenReserves + amount) with
        | error e =>
          have := bigDiv_ne_curveComplete (amount * c.virtualSolReserves)
            (c.virtualTokenReserves + amount)
          rw [hbd] at this
          simpa using this
        | ok n =>
          cases hbd2 : bigDiv (n * feeBasisPoints) 10000 with
          | error e =>
            have := bigDiv_ne_curveComplete (n * feeBasisPoints) 10000
            rw [hbd2] at this
            simpa [hbd2] using this
          | ok f => simp [hbd2]
  · simp only [BondingCurveAccount.getBuyOutPrice]
    generalize (if amount < c.realSolReserves then c.realSolReserves else amount) = st
    cases hbd : bigDiv (st * c.virtualSolReserves)
        (c.virtualTokenReserves - st) with
    | error e =>
      have := bigDiv_ne_curveComplete (st * c.virtualSolReserves)
        (c.virtualTokenReserves - st)
      rw [hbd] at this
      simpa using this
    | ok q =>
      cases hbd2 : bigDiv ((q + 1) * feeBasisPoints) 10000 with
      | error e =>
        have := bigDiv_ne_curveComplete ((q + 1) * feeBasisPoints) 10000
        rw [hbd2] at this
        simpa [hbd2] using this
      | ok f => simp [hbd2]


/-- Witness for C8 at concrete complete and non-complete states. -/
theorem curve_complete_gating_spec_witness :
    BondingCurveAccount.getBuyPrice ⟨0, 1000, 1000, 500, 10, 0, true⟩ 100 =
      Except.error CurveErr.curveComplete ∧
    BondingCurveAccount.getSellPrice ⟨0, 1000, 1000, 500, 10, 0, false⟩ 100 100 ≠
      Except.error CurveErr.curveComplete := by
  have hT := curve_complete_gating_spec ⟨0, 1000, 1000, 500, 10, 0, true⟩ 100 100
  have hF := curve_complete_gating_spec ⟨0, 1000, 1000, 500, 10, 0, false⟩ 100 100
  exact ⟨(hT.1 rfl).1, (hF.2.1 rfl).2⟩

/-- Counterexample to C8 as stated: on a state with `complete = true`,
`getBuyOutPrice 100 100` returns the price 113 instead of failing. -/
theorem buyout_ignores_complete_counterexample :
    (⟨0, 1000, 1000, 500, 10, 0, true⟩ : BondingCurveAccount).complete = true ∧
    BondingCurveAccount.getBuyOutPrice ⟨0, 1000, 1000, 500, 10, 0, true⟩ 100 100 =
      Except.ok 113 ∧
    BondingCurveAccount.getBuyOutPrice ⟨0, 1000, 1000, 500, 10, 0, true⟩ 100 100 ≠
      Except.error CurveErr.curveComplete := ⟨rfl, by decide, by decide⟩

/-- Inversion for `applyBuy`: on success the real sol reserves grow by
exactly the sol amount charged. -/
lemma amm_applyBuy_ok_realSol {a : AMM} {t : Int} {r : BuyResult} {a1 : AMM}
    (h : a.applyBuy t = Except.ok (r, a1)) :
    a1.realSolReserves = a.realSolReserves + r.sol_amount := by
  simp only [AMM.applyBuy] at h
  split at h
  · simp at h
  · simp only [Except.ok.injEq, Prod.mk.injEq] at h
    obtain ⟨h1, h2⟩ := h
    subst h2
    simp [← h1]

/-- Inversion for `applySell`: on success the proceeds are clamped to the
pre-sell real sol reserves. -/
lemma amm_applySell_ok_le {a : AMM} {t : Int} {r : SellResult} {a1 : AMM}
    (h : a.applySell t = Except.ok (r, a1)) :
    r.sol_amount ≤ a.realSolReserves := by
  simp only [AMM.applySell, AMM.getSellPrice] at h
  split at h
  · simp at h
  · rename_i sol hsol
    split at hsol
    · simp at hsol
    · split at hsol
      · simp at hsol
      · simp only [Except.ok.injEq, Prod.mk.injEq] at h hsol
        obtain ⟨hr, -⟩ := h
        rw [← hr, ← hsol]
        dsimp only
        split <;> omega

/-- Claim C4: on an AMM freshly constructed from global parameters (real
sol reserves 0), a buy of `t ≥ 0` tokens followed by a sell of the same
nominal `t` returns no more SOL than the buy charged. -/
theorem amm_buy_then_sell_no_gain (global : GlobalAccount) (t : Int)
    (_ht : 0 ≤ t) (br : BuyResult) (a1 : AMM) (sr : SellResult) (a2 : AMM)
    (hbuy : (AMM.fromGlobalAccount global).applyBuy t = Except.ok (br, a1))
    (hsell : a1.applySell t = Except.ok (sr, a2)) :
    sr.sol_amount ≤ br.sol_amount := by
  have h1 := amm_applyBuy_ok_realSol hbuy
  have h2 := amm_applySell_ok_le hsell
  simp only [AMM.fromGlobalAccount] at h1
  omega

/-- Witness for C4 at concrete globals (1000/1000/500) and `t = 100`: the buy
run charges 112 and succeeds, the sell run returns 111 and succeeds, and the
theorem instance gives 111 ≤ 112. -/
theorem amm_buy_then_sell_no_gain_witness :
    SellResult.sol_amount ⟨100, 111⟩ ≤ BuyResult.sol_amount ⟨100, 112⟩ :=
  amm_buy_then_sell_no_gain ⟨0, true, ⟨0⟩, ⟨0⟩, 1000, 1000, 500, 0, 0⟩ 100
    (by decide)
    ⟨100, 112⟩ ⟨1112, 900, 112, 400, 1000⟩ ⟨100, 111⟩ ⟨1001, 1000, 1, 500, 1000⟩
    (by decide) (by decide)


/-- Claim C5, amended: for a state with non-negative sol and real token
reserves and a purchase `t ≥ 0` whose clamped amount stays below the virtual
token reserves, `applyBuy` succeeds and the constant product
`virtualSolReserves * virtualTokenReserves` strictly grows, by at least 1 and
by at most the post-trade virtual token reserves — a state-dependent bound,
not a per-operation constant. -/
theorem amm_applyBuy_product_drift (a : AMM) (t : Int)
    (hS : 0 ≤ a.virtualSolReserves) (hRT : 0 ≤ a.realTokenReserves)
    (ht : 0 ≤ t)
    (hlt : (if t > a.realTokenReserves then a.realTokenReserves else t) <
      a.virtualTokenReserves) :
    ∃ r a1, a.applyBuy t = Except.ok (r, a1) ∧
      1 ≤ a1.virtualSolReserves * a1.virtualTokenReserves -
            a.virtualSolReserves * a.virtualTokenReserves ∧
      a1.virtualSolReserves * a1.virtualTokenReserves -
            a.virtualSolReserves * a.virtualTokenReserves ≤
        a1.virtualTokenReserves := by
  set f := if t > a.realTokenReserves then a.realTokenReserves else t with hf
  have hf0 : 0 ≤ f := by rw [hf]; split <;> omega
  have hdpos : 0 < a.virtualTokenReserves - f := by omega
  set d := a.virtualTokenReserves - f with hd
  have hvT : 0 ≤ a.virtualTokenReserves := by omega
  have hP : 0 ≤ a.virtualSolReserves * a.virtualTokenReserves :=
    mul_nonneg hS hvT
  set q := Int.tdiv (a.virtualSolReserves * a.virtualTokenReserves) d with hq
  have hqe : q = a.virtualSolReserves * a.virtualTokenReserves / d :=
    Int.tdiv_eq_ediv hP hdpos.le
  have hqge : a.virtualSolReserves ≤ q := by
    rw [hqe]
    calc a.virtualSolReserves
        = a.virtualSolReserves * d / d :=
          (Int.mul_ediv_cancel _ hdpos.ne').symm
      _ ≤ a.virtualSolReserves * a.virtualTokenReserves / d :=
          Int.ediv_le_ediv hdpos
            (mul_le_mul_of_nonneg_left (by omega) hS)
  have happly : a.applyBuy t = Except.ok
      ({ token_amount := f, sol_amount := q + 1 - a.virtualSolReserves },
       { virtualSolReserves :=
           a.virtualSolReserves + (q + 1 - a.virtualSolReserves)
         virtualTokenReserves := a.virtualTokenReserves - f
         realSolReserves :=
           a.realSolReserves + (q + 1 - a.virtualSolReserves)
         realTokenReserves := a.realTokenReserves - f
         initialVirtualTokenReserves := a.initialVirtualTokenReserves }) := by
    simp only [AMM.applyBuy, AMM.getBuyPrice, bigDiv, ← hf, ← hd, ← hq,
      if_neg hdpos.ne', if_pos (show q + 1 > a.virtualSolReserves by omega),
      if_pos (show q + 1 - a.virtualSolReserves > 0 by omega)]
  refine ⟨_, _, happly, ?_, ?_⟩
  · have h1 := Int.ediv_add_emod (a.virtualSolReserves * a.virtualTokenReserves) d
    have hrem0 : 0 ≤ a.virtualSolReserves * a.virtualTokenReserves % d :=
      Int.emod_nonneg _ hdpos.ne'
    have key : (a.virtualSolReserves + (q + 1 - a.virtualSolReserves)) *
        (a.virtualTokenReserves - f) -
        a.virtualSolReserves * a.virtualTokenReserves =
        d - a.virtualSolReserves * a.virtualTokenReserves % d := by
      rw [hqe, ← hd]
      linear_combination h1
    have hremlt : a.virtualSolReserves * a.virtualTokenReserves % d < d :=
      Int.emod_lt_of_pos _ hdpos
    dsimp only
    rw [key]
    omega
  · have h1 := Int.ediv_add_emod (a.virtualSolReserves * a.virtualTokenReserves) d
    have hrem0 : 0 ≤ a.virtualSolReserves * a.virtualTokenReserves % d :=
      Int.emod_nonneg _ hdpos.ne'
    have key : (a.virtualSolReserves + (q + 1 - a.virtualSolReserves)) *
        (a.virtualTokenReserves - f) -
        a.virtualSolReserves * a.virtualTokenReserves =
        d - a.virtualSolReserves * a.virtualTokenReserves % d := by
      rw [hqe, ← hd]
      linear_combination h1
    dsimp only
    rw [key]
    omega


/-- Witness for C5 at the concrete state (10,1000,0,900,1000), `t = 1`. -/
theorem amm_applyBuy_product_drift_witness :
    ∃ r a1, (⟨10, 1000, 0, 900, 1000⟩ : AMM).applyBuy 1 =
        Except.ok (r, a1) ∧
      1 ≤ a1.virtualSolReserves * a1.virtualTokenReserves -
            (10 : Int) * 1000 ∧
      a1.virtualSolReserves * a1.virtualTokenReserves - (10 : Int) * 1000 ≤
        a1.virtualTokenReserves :=
  amm_applyBuy_product_drift ⟨10, 1000, 0, 900, 1000⟩ 1 (by decide) (by decide)
    (by decide) (by decide)

/-- Counterexample to C5 as stated: one single `applyBuy` of one token on
the state (10,1000,0,900,1000) moves the constant product from 10000 to
10989, a drift of 989 — far beyond the claimed per-operation `+1`-rounding
constant. -/
theorem amm_product_drift_counterexample :
    (⟨10, 1000, 0, 900, 1000⟩ : AMM).applyBuy 1 =
      Except.ok (⟨1, 1⟩, ⟨11, 999, 1, 899, 1000⟩) ∧
    (11 : Int) * 999 - 10 * 1000 = 989 ∧ (989 : Int) > 1 := by
  refine ⟨by decide, by decide, by decide⟩

/-- Claim C6, amended: when the post-increment virtual token reserves and
the launch scaling constant are both nonzero, `applySell t` increments both
token reserves by the full `t`, prices against the post-increment reserves as
`min (virtualSolReserves * (t * initialVirtualTokenReserves /
(virtualTokenReserves + t)) / initialVirtualTokenReserves) realSolReserves`,
decrements both sol reserves by exactly that, and returns the pair. The claim
omitted the `initialVirtualTokenReserves ≠ 0` hypothesis. -/
theorem amm_applySell_spec (a : AMM) (t : Int)
    (h1 : a.virtualTokenReserves + t ≠ 0)
    (h2 : a.initialVirtualTokenReserves ≠ 0) :
    a.applySell t = Except.ok
      ({ token_amount := t, sol_amount := sellProceeds a t },
       { virtualSolReserves := a.virtualSolReserves - sellProceeds a t
         virtualTokenReserves := a.virtualTokenReserves + t
         realSolReserves := a.realSolReserves - sellProceeds a t
         realTokenReserves := a.realTokenReserves + t
         initialVirtualTokenReserves := a.initialVirtualTokenReserves }) := by
  simp only [AMM.applySell, AMM.getSellPrice, bigDiv, if_neg h1, if_neg h2,
    sellProceeds, ite_lt_eq_min]

/-- Witness for C6 at the concrete state (1000,1000,0,500,1000),
`t = 100`. -/
theorem amm_applySell_spec_witness :
    (⟨1000, 1000, 0, 500, 1000⟩ : AMM).applySell 100 = Except.ok
      ({ token_amount := 100,
         sol_amount := sellProceeds ⟨1000, 1000, 0, 500, 1000⟩ 100 },
       { virtualSolReserves :=
           1000 - sellProceeds ⟨1000, 1000, 0, 500, 1000⟩ 100
         virtualTokenReserves := 1100
         realSolReserves := 0 - sellProceeds ⟨1000, 1000, 0, 500, 1000⟩ 100
         realTokenReserves := 600
         initialVirtualTokenReserves := 1000 }) :=
  amm_applySell_spec ⟨1000, 1000, 0, 500, 1000⟩ 100 (by decide) (by decide)

/-- Counterexample to C6 as stated: with `initialVirtualTokenReserves = 0`
and nonzero `virtualTokenReserves + t`, `applySell` fails with a division by
zero instead of returning the claimed result. -/
theorem amm_applySell_zero_scaling_counterexample :
    (⟨5, 1, 7, 3, 0⟩ : AMM).virtualTokenReserves + 0 ≠ 0 ∧
    (⟨5, 1, 7, 3, 0⟩ : AMM).applySell 0 =
      Except.error CurveErr.divByZero := ⟨by decide, by decide⟩


lemma filterMap_range3_eq_take {τ : Type} (l : List τ) :
    (List.range 3).filterMap (fun j => l[j]?) = l.take 3 := by
  match l with
  | [] => simp [List.range_succ]
  | [a] => simp [List.range_succ]
  | [a, b] => simp [List.range_succ]
  | a :: b :: c :: rest => simp [List.range_succ]

lemma chunkAt_eq_take_drop {τ : Type} (txs : List τ) (i : Nat) :
    chunkAt txs i = (txs.drop (3 * i)).take 3 := by
  calc chunkAt txs i
      = (List.range 3).filterMap (fun j => (txs.drop (3 * i))[j]?) := by
        simp [chunkAt, List.getElem?_drop]
    _ = (txs.drop (3 * i)).take 3 := filterMap_range3_eq_take _

lemma chunkAt_succ {τ : Type} (txs : List τ) (i : Nat) :
    chunkAt txs (i + 1) = chunkAt (txs.drop 3) i := by
  rw [chunkAt_eq_take_drop, chunkAt_eq_take_drop, List.drop_drop]
  have h3 : 3 * (i + 1) = 3 + 3 * i := by ring
  rw [h3]

lemma chunksList_flatten_aux {τ : Type} :
    ∀ (n : Nat) (txs : List τ), txs.length = n →
      (chunksList txs).flatten = txs := by
  intro n
  induction n using Nat.strong_induction_on with
  | _ n ih =>
    intro txs hlen
    match txs with
    | [] => simp [chunksList, txNum]
    | x :: rest =>
      have hL : (x :: rest).length = rest.length + 1 := rfl
      have hstep : txNum (x :: rest) = txNum ((x :: rest).drop 3) + 1 := by
        simp only [txNum, List.length_drop, hL]
        omega
      have hchunks : chunksList (x :: rest) =
          chunkAt (x :: rest) 0 :: chunksList ((x :: rest).drop 3) := by
        rw [chunksList, hstep, List.range_succ_eq_map, List.map_cons,
          List.map_map, chunksList]
        congr 1
        apply List.map_congr_left
        intro i _
        simp only [Function.comp]
        exact chunkAt_succ (x :: rest) i
      have hih : (chunksList ((x :: rest).drop 3)).flatten =
          (x :: rest).drop 3 := by
        apply ih ((x :: rest).drop 3).length _ _ rfl
        simp only [List.length_drop, hL]
        omega
      rw [hchunks, List.flatten_cons, hih, chunkAt_eq_take_drop]
      simp only [Nat.mul_zero, List.drop_zero]
      exact List.take_append_drop 3 (x :: rest)

lemma chunksList_flatten {τ : Type} (txs : List τ) :
    (chunksList txs).flatten = txs :=
  chunksList_flatten_aux txs.length txs rfl

/-- Claim C3: `bundle` splits its transaction list into `⌈n/3⌉` consecutive
chunks of at most 3 transactions whose concatenation is the original list,
submits each chunk independently, and returns true exactly when every chunk's
submission reports success. -/
theorem bundle_chunking_spec {τ : Type} (submit : Nat → List τ → Bool)
    (txs : List τ) :
    (chunksList txs).length = (txs.length + 2) / 3 ∧
    (∀ ch ∈ chunksList txs, ch.length ≤ 3) ∧
    (chunksList txs).flatten = txs ∧
    (bundleRun submit txs = true ↔
      ∀ i < txNum txs, submit i (chunkAt txs i) = true) := by
  refine ⟨?_, ?_, chunksList_flatten txs, ?_⟩
  · simp [chunksList, txNum]
  · intro ch hch
    simp only [chunksList, List.mem_map] at hch
    obtain ⟨i, -, rfl⟩ := hch
    rw [chunkAt_eq_take_drop, List.length_take]
    omega
  · unfold bundleRun
    rw [beq_iff_eq]
    constructor
    · intro h i hi
      have h2 := List.countP_eq_length.mp
        (by rw [List.length_range]; exact h)
      exact h2 i (List.mem_range.mpr hi)
    · intro h
      have hall : ∀ i ∈ List.range (txNum txs),
          (fun i => submit i (chunkAt txs i)) i = true := by
        intro i hi
        exact h i (List.mem_range.mp hi)
      simpa using List.countP_eq_length.mpr hall

/-- Witness for C3 on a 4-transaction list: two chunks, and an oracle that
fails the second chunk makes the overall run fail. -/
theorem bundle_chunking_spec_witness :
    (chunksList ([10, 20, 30, 40] : List Nat)).length = 2 ∧
    (∀ ch ∈ chunksList ([10, 20, 30, 40] : List Nat), ch.length ≤ 3) ∧
    (chunksList ([10, 20, 30, 40] : List Nat)).flatten = [10, 20, 30, 40] ∧
    bundleRun (fun i _ => i == 0) ([10, 20, 30, 40] : List Nat) = false := by
  have h := bundle_chunking_spec (fun i _ => i == 0)
    ([10, 20, 30, 40] : List Nat)
  refine ⟨by simpa using h.1, h.2.1, h.2.2.1, ?_⟩
  have hnot : ¬ ∀ i < txNum ([10, 20, 30, 40] : List Nat),
      (fun (i : Nat) (_ : List Nat) => i == 0) i
        (chunkAt ([10, 20, 30, 40] : List Nat) i) = true := by decide
  rcases hb : bundleRun (fun i _ => i == 0) ([10, 20, 30, 40] : List Nat)
    with _ | _
  · rfl
  · exact absurd (h.2.2.2.mp hb) hnot

/-- Claim C10: on the empty transaction list `bundle` reports overall
success while the list of submitted chunks is empty — success over zero
chunks is vacuous. -/
theorem bundle_empty_spec (submit : Nat → List Nat → Bool) :
    bundleRun submit ([] : List Nat) = true ∧
    chunksList ([] : List Nat) = [] := ⟨rfl, rfl⟩


/-- Claim C9, amended: the drawn percentage `p = getRandomInt 10 25 r` lies
in `[10, 25]` for every draw `r ∈ [0, 1)`; and the randomized buy amount
equals `(buyAmountSol / 100) * (100 + p)` for odd `p` and
`(buyAmountSol / 100) * (100 - p)` for even `p`, the truncating division by
100 being applied to the nominal amount before the multiplication — which
agrees with exact scaling by `(100 ± p)/100` precisely when 100 divides the
nominal amount. -/
theorem randomized_buy_amount_spec (r : ℚ) (hr0 : 0 ≤ r) (hr1 : r < 1) :
    (10 ≤ getRandomInt 10 25 r ∧ getRandomInt 10 25 r ≤ 25) ∧
    (∀ buyAmountSol p : Int, 100 ∣ buyAmountSol →
      buyAmountSolWithRandom buyAmountSol p =
        Int.tdiv
          (buyAmountSol * (if Int.tmod p 2 = 0 then 100 - p else 100 + p))
          100) := by
  constructor
  · have hceil : Int.ceil (10 : ℚ) = 10 := by norm_num
    have hfloor : Int.floor (25 : ℚ) = 25 := by norm_num
    have h16 : ((25 : Int) : ℚ) - ((10 : Int) : ℚ) + 1 = 16 := by norm_num
    simp only [getRandomInt, hceil, hfloor, h16]
    constructor
    · have : 0 ≤ Int.floor (r * 16) := Int.floor_nonneg.mpr (by positivity)
      omega
    · have hlt : r * 16 < ((16 : Int) : ℚ) := by
        push_cast
        nlinarith
      have : Int.floor (r * 16) < 16 := Int.floor_lt.mpr hlt
      omega
  · rintro _ p ⟨k, rfl⟩
    unfold buyAmountSolWithRandom
    rw [Int.mul_tdiv_cancel_left k (by norm_num : (100 : Int) ≠ 0),
      mul_assoc,
      Int.mul_tdiv_cancel_left
        (k * (if Int.tmod p 2 = 0 then 100 - p else 100 + p))
        (by norm_num : (100 : Int) ≠ 0)]

/-- Witness for C9 at the concrete draw `r = 1/16`. -/
theorem randomized_buy_amount_spec_witness :
    (10 ≤ getRandomInt 10 25 (1/16) ∧ getRandomInt 10 25 (1/16) ≤ 25) ∧
    (∀ buyAmountSol p : Int, 100 ∣ buyAmountSol →
      buyAmountSolWithRandom buyAmountSol p =
        Int.tdiv
          (buyAmountSol * (if Int.tmod p 2 = 0 then 100 - p else 100 + p))
          100) :=
  randomized_buy_amount_spec (1/16) (by norm_num) (by norm_num)

/-- Counterexample to C9 as stated: with nominal amount 150 and drawn odd
percentage 11, the code produces `(150/100)*111 = 111`, while scaling the
nominal amount by `111/100` (multiply first, truncating) gives 166. -/
theorem randomized_buy_amount_counterexample :
    getRandomInt 10 25 (1/16) = 11 ∧
    Int.tmod 11 2 ≠ 0 ∧
    buyAmountSolWithRandom 150 11 = 111 ∧
    Int.tdiv (150 * (100 + 11)) 100 = 166 ∧
    (111 : Int) ≠ 166 := by
  refine ⟨?_, by decide, by decide, by decide, by decide⟩
  norm_num [getRandomInt]

end PumpSdk
